import Mathlib

/-!
# Magic-link authentication: shallow embedding and verification

This file embeds the magic-link authentication component of the JobMatch
backend (the Express handlers `POST /magic-link`, `POST /verify-magic-link`
and `POST /check-magic-link`, together with `authService.validateEmail`)
as executable Lean definitions over an explicit store state, and proves
the specification's claims about it.

Modelling conventions:
* Timestamps are `Nat` milliseconds (JavaScript `Date.now()`).  The store
  comparison `createdAt >= now - 5min`, whose right-hand side may go
  negative in JavaScript, is written in the subtraction-free equivalent
  form `now <= createdAt + 5min`, which agrees with the integer semantics.
* `generateToken` (a JWT signing helper living outside the handler file)
  produces an opaque string; the token it returns is passed to each
  operation as an explicit argument, since no claim depends on its
  internal structure.
* Every `await` on the store or the email channel is a suspension point;
  the sequential handlers below perform those store operations in program
  order.  For the concurrency claim, the two store operations inside the
  verify handler (the `findFirst` read and the `update` write) are taken
  as the atomic steps and interleaved explicitly.
* The email channel and the user-store step of the verify handler can
  fail; those outcomes are injected as explicit boolean arguments
  (`emailSendOk`, `userStoreOk`) reflecting whether the corresponding
  `await` throws.
-/

namespace JobFinder

/-- A row of the `magicLink` table (Prisma model `MagicLink`). -/
structure MagicLink where
  id : Nat
  email : String
  token : String
  createdAt : Nat
  expiresAt : Nat
  used : Bool
deriving Repr, DecidableEq

/-- A row of the `user` table, with the fields the auth handlers touch. -/
structure UserRec where
  id : Nat
  email : String
  passwordHash : String
  firstName : String
  lastName : String
  role : String
deriving Repr, DecidableEq

/-- The persistent store: the two tables plus id allocators. -/
structure DB where
  magicLinks : List MagicLink
  users : List UserRec
  nextLinkId : Nat
  nextUserId : Nat
deriving Repr, DecidableEq

/-- The empty store. -/
def DB.init : DB := ⟨[], [], 0, 0⟩

/-- Log levels of the backend logger. -/
inductive LogLevel where
  | info
  | warn
  | error
deriving Repr, DecidableEq

/-- A single logger call: level and (leading) message text. -/
structure LogEvent where
  level : LogLevel
  message : String
deriving Repr, DecidableEq

/-- Splits a character list at every occurrence of `c` (kernel-reducible
counterpart of `String.splitOn` on a single-character separator). -/
def splitOnChar (c : Char) : List Char → List (List Char)
  | [] => [[]]
  | x :: xs =>
      match splitOnChar c xs with
      | [] => if x = c then [[], []] else [[x]]
      | y :: ys => if x = c then [] :: y :: ys else (x :: y) :: ys

/--
`authService.validateEmail`: tests the string against the regular
expression `^[^\s@]+@[^\s@]+\.[^\s@]+$`.  A string matches exactly when it
splits as `local@domain` with a single `@`, both parts nonempty and free
of whitespace, and the domain containing a `.` that has at least one
character on each side.  (`Char.isWhitespace` stands in for the regex
class `\s`; the two agree on all ASCII inputs.)
-/
def validateEmail (email : String) : Bool :=
  match splitOnChar '@' email.toList with
  | [localPart, domainPart] =>
      !localPart.isEmpty &&
      localPart.all (fun c => !c.isWhitespace) &&
      !domainPart.isEmpty &&
      domainPart.all (fun c => !c.isWhitespace) &&
      (List.range domainPart.length).any
        (fun i => decide (0 < i) && decide (i + 1 < domainPart.length) &&
          (domainPart.getD i ' ' == '.'))
  | _ => false

/-- `prisma.magicLink.deleteMany({where: {email, used: false}})`. -/
def magicLinkDeleteManyUnused (db : DB) (email : String) : DB :=
  { db with magicLinks :=
      db.magicLinks.filter (fun l => !(decide (l.email = email ∧ l.used = false))) }

/-- `prisma.magicLink.create({data: {email, token, expiresAt, used: false}})`. -/
def magicLinkCreate (db : DB) (email token : String) (createdAt expiresAt : Nat) : DB :=
  { db with
    magicLinks := db.magicLinks ++ [⟨db.nextLinkId, email, token, createdAt, expiresAt, false⟩],
    nextLinkId := db.nextLinkId + 1 }

/-- The `where` clause of the verify handler's `findFirst`:
`{token, used: false, expiresAt: {gt: now}}`. -/
def liveMatch (token : String) (now : Nat) (l : MagicLink) : Bool :=
  decide (l.token = token ∧ l.used = false ∧ now < l.expiresAt)

/-- `prisma.magicLink.findFirst({where: {token, used: false, expiresAt: {gt: now}}})`. -/
def magicLinkFindFirstLive (db : DB) (token : String) (now : Nat) : Option MagicLink :=
  db.magicLinks.find? (liveMatch token now)

/-- `prisma.magicLink.update({where: {id}, data: {used: true}})` — note this
write is keyed on `id` alone; it is not conditional on `used`. -/
def magicLinkMarkUsed (db : DB) (id : Nat) : DB :=
  { db with magicLinks :=
      db.magicLinks.map (fun l => if l.id = id then { l with used := true } else l) }

/-- `prisma.user.findUnique({where: {email}})`. -/
def userFindUnique (db : DB) (email : String) : Option UserRec :=
  db.users.find? (fun u => decide (u.email = email))

/-- `prisma.user.create` with the placeholder fields the verify handler
supplies: empty password hash, names `User`/`Name`, role `JOB_SEEKER`. -/
def userCreate (db : DB) (email : String) : DB × UserRec :=
  let u : UserRec := ⟨db.nextUserId, email, "", "User", "Name", "JOB_SEEKER"⟩
  ({ db with users := db.users ++ [u], nextUserId := db.nextUserId + 1 }, u)

/-- The URL built by the magic-link handler:
`${FRONTEND_URL || 'http://localhost:3000'}/auth/magic-link?token=${token}`. -/
def magicLinkUrl (frontendUrl : Option String) (token : String) : String :=
  (frontendUrl.getD "http://localhost:3000") ++ "/auth/magic-link?token=" ++ token

/-- Response of `POST /magic-link`: either a 400 with an error string, or
the 200 body `{message, warning?, magicLink?}` (the latter two fields are
only sometimes present, exactly as the handler spreads them in). -/
inductive RequestLinkResponse where
  | badRequest (error : String)
  | ok (message : String) (warning : Option String) (magicLink : Option String)
deriving Repr, DecidableEq

/-- HTTP status of a `POST /magic-link` response. -/
def RequestLinkResponse.httpStatus : RequestLinkResponse → Nat
  | .badRequest _ => 400
  | .ok _ _ _ => 200

/--
The `POST /magic-link` handler.  `magicToken` is the string returned by
`generateToken`; `now` is `Date.now()` at the moment the handler computes
the expiry; `emailSendOk` is whether `emailService.sendMagicLink`
resolves (`false` = it throws); `nodeEnv` is `process.env.NODE_ENV` and
`frontendUrl` is `process.env.FRONTEND_URL`.  Returns the new store, the
response, and the logger calls made on the email path.
-/
def requestLink (db : DB) (email magicToken : String) (now : Nat)
    (emailSendOk : Bool) (nodeEnv frontendUrl : Option String) :
    DB × RequestLinkResponse × List LogEvent :=
  if email = "" then (db, .badRequest "Email is required", [])
  else if !validateEmail email then (db, .badRequest "Invalid email format", [])
  else
    let db1 := magicLinkDeleteManyUnused db email
    let db2 := magicLinkCreate db1 email magicToken now (now + 15 * 60 * 1000)
    let link := magicLinkUrl frontendUrl magicToken
    let devLink : Option String := if nodeEnv = some "development" then some link else none
    if emailSendOk then
      (db2, .ok "Magic link sent successfully" none devLink,
        [⟨.info, "Magic link email sent successfully"⟩])
    else
      (db2, .ok "Magic link sent successfully" (some "Email delivery may be delayed") devLink,
        [⟨.error, "Failed to send magic link email:"⟩])

/-- Response of `POST /verify-magic-link`. -/
inductive VerifyResponse where
  | tokenRequired
  | invalidOrExpired
  | serverError
  | success (authToken : String) (user : UserRec)
deriving Repr, DecidableEq

/-- HTTP status of a `POST /verify-magic-link` response. -/
def VerifyResponse.httpStatus : VerifyResponse → Nat
  | .tokenRequired => 400
  | .invalidOrExpired => 400
  | .serverError => 500
  | .success _ _ => 200

/-- Whether a verify response is the 200 success. -/
def VerifyResponse.isSuccess : VerifyResponse → Bool
  | .success _ _ => true
  | _ => false

/--
The tail of the verify handler after its `findFirst` returned the record
`l`: mark the token used, then find-or-create the user and respond.
`userStoreOk = false` models the user lookup/creation throwing after the
update committed — the `catch` then answers 500 with the mark in place.
`sessionTok` is the string `generateToken` returns for the session.
-/
def verifyLinkFinish (db : DB) (l : MagicLink) (userStoreOk : Bool) (sessionTok : String) :
    DB × VerifyResponse :=
  let db1 := magicLinkMarkUsed db l.id
  if !userStoreOk then (db1, .serverError)
  else
    match userFindUnique db1 l.email with
    | some u => (db1, .success sessionTok u)
    | none =>
        let p := userCreate db1 l.email
        (p.1, .success sessionTok p.2)

/-- The `POST /verify-magic-link` handler. -/
def verifyLink (db : DB) (token : String) (now : Nat) (userStoreOk : Bool)
    (sessionTok : String) : DB × VerifyResponse :=
  if token = "" then (db, .tokenRequired)
  else
    match magicLinkFindFirstLive db token now with
    | none => (db, .invalidOrExpired)
    | some l => verifyLinkFinish db l userStoreOk sessionTok

/--
Two invocations of `verifyLink` on the same token, interleaved in the
schedule R1;R2;W1;W2: both `findFirst` reads run against the initial
store before either invocation performs its `update`, then each
invocation finishes in turn.  Each invocation's own steps stay in program
order, so this is a legal interleaving of the handler's suspension
points.  Returns the two responses.
-/
def concurrentDoubleVerify (db : DB) (token : String) (now : Nat)
    (s1 s2 : String) : VerifyResponse × VerifyResponse :=
  match magicLinkFindFirstLive db token now with
  | none => (.invalidOrExpired, .invalidOrExpired)
  | some l =>
      let p1 := verifyLinkFinish db l true s1
      (p1.2, (verifyLinkFinish p1.1 l true s2).2)

/-- Response of `POST /check-magic-link`. -/
inductive CheckResponse where
  | emailRequired
  | authenticated (token : String)
  | notAuthenticated
deriving Repr, DecidableEq

/-- The `where` clause of the check handler's `findFirst`:
`{email, used: true, createdAt: {gte: new Date(now - 5*60*1000)}}`.
Written subtraction-free: `createdAt >= now - 5min` iff `now <= createdAt + 5min`. -/
def recentUsedMatch (email : String) (now : Nat) (l : MagicLink) : Bool :=
  decide (l.email = email ∧ l.used = true ∧ now ≤ l.createdAt + 5 * 60 * 1000)

/--
The `POST /check-magic-link` handler.  The handler's `findFirst` with
`orderBy createdAt desc` only feeds the `if (recentAuth)` test — the
selected record itself is never used — so only the existence of a match
is observable.  `sessionTok` is the fresh credential `generateToken`
returns when a user is resolved.
-/
def checkStatus (db : DB) (email : String) (now : Nat) (sessionTok : String) :
    CheckResponse :=
  if email = "" then .emailRequired
  else if db.magicLinks.any (recentUsedMatch email now) then
    match userFindUnique db email with
    | some _ => .authenticated sessionTok
    | none => .notAuthenticated
  else .notAuthenticated

/-- The operations through which the store evolves, for stating
reachability invariants.  `check` is read-only. -/
inductive Op where
  | request (email token : String) (now : Nat) (emailSendOk : Bool)
      (nodeEnv frontendUrl : Option String)
  | verify (token : String) (now : Nat) (userStoreOk : Bool) (sessionTok : String)
  | check (email : String) (now : Nat) (sessionTok : String)

/-- The store after one handler invocation. -/
def applyOp (db : DB) : Op → DB
  | .request e t n ok env furl => (requestLink db e t n ok env furl).1
  | .verify t n ok s => (verifyLink db t n ok s).1
  | .check _ _ _ => db

/-- The store reached by a sequence of handler invocations from empty. -/
def runOps (ops : List Op) : DB := ops.foldl applyOp DB.init

/-! ## Helper lemmas about the store operations -/

theorem liveMatch_eq_true {t : String} {now : Nat} {l : MagicLink} :
    liveMatch t now l = true ↔ l.token = t ∧ l.used = false ∧ now < l.expiresAt := by
  simp [liveMatch]

theorem findFirstLive_eq_none {db : DB} {t : String} {now : Nat} :
    magicLinkFindFirstLive db t now = none ↔
      ∀ l ∈ db.magicLinks, ¬(l.token = t ∧ l.used = false ∧ now < l.expiresAt) := by
  simp [magicLinkFindFirstLive, List.find?_eq_none, liveMatch]

theorem findFirstLive_some {db : DB} {t : String} {now : Nat} {l : MagicLink}
    (h : magicLinkFindFirstLive db t now = some l) :
    l ∈ db.magicLinks ∧ l.token = t ∧ l.used = false ∧ now < l.expiresAt := by
  refine ⟨List.mem_of_find?_eq_some h, ?_⟩
  have := List.find?_some h
  exact liveMatch_eq_true.mp this

theorem markUsed_magicLinks (db : DB) (id : Nat) :
    (magicLinkMarkUsed db id).magicLinks =
      db.magicLinks.map (fun l => if l.id = id then { l with used := true } else l) := rfl

theorem markUsed_users (db : DB) (id : Nat) :
    (magicLinkMarkUsed db id).users = db.users := rfl

theorem userCreate_magicLinks (db : DB) (e : String) :
    ((userCreate db e).1).magicLinks = db.magicLinks := rfl

theorem verifyLinkFinish_magicLinks (db : DB) (l : MagicLink) (ok : Bool) (s : String) :
    ((verifyLinkFinish db l ok s).1).magicLinks = (magicLinkMarkUsed db l.id).magicLinks := by
  unfold verifyLinkFinish
  cases ok with
  | false => rfl
  | true =>
      simp only [Bool.not_true, Bool.false_eq_true, if_false]
      cases h : userFindUnique (magicLinkMarkUsed db l.id) l.email with
      | some u => rfl
      | none => rfl

theorem verifyLink_magicLinks (db : DB) (t : String) (now : Nat) (ok : Bool) (s : String) :
    ((verifyLink db t now ok s).1).magicLinks = db.magicLinks ∨
      ∃ l, magicLinkFindFirstLive db t now = some l ∧
        ((verifyLink db t now ok s).1).magicLinks = (magicLinkMarkUsed db l.id).magicLinks := by
  unfold verifyLink
  by_cases ht : t = ""
  · rw [if_pos ht]; exact Or.inl rfl
  · rw [if_neg ht]
    cases h : magicLinkFindFirstLive db t now with
    | none => exact Or.inl rfl
    | some l => exact Or.inr ⟨l, rfl, verifyLinkFinish_magicLinks db l ok s⟩

theorem requestLink_valid (db : DB) (e t : String) (now : Nat) (sendOk : Bool)
    (env furl : Option String) (he : e ≠ "") (hv : validateEmail e = true) :
    requestLink db e t now sendOk env furl =
      (magicLinkCreate (magicLinkDeleteManyUnused db e) e t now (now + 15 * 60 * 1000),
       .ok "Magic link sent successfully"
         (if sendOk then none else some "Email delivery may be delayed")
         (if env = some "development" then some (magicLinkUrl furl t) else none),
       if sendOk then [⟨.info, "Magic link email sent successfully"⟩]
       else [⟨.error, "Failed to send magic link email:"⟩]) := by
  unfold requestLink
  rw [if_neg he, hv]
  cases sendOk <;> rfl

theorem requestLink_valid_magicLinks (db : DB) (e t : String) (now : Nat) (sendOk : Bool)
    (env furl : Option String) (he : e ≠ "") (hv : validateEmail e = true) :
    ((requestLink db e t now sendOk env furl).1).magicLinks =
      (db.magicLinks.filter (fun l => !(decide (l.email = e ∧ l.used = false)))) ++
        [⟨db.nextLinkId, e, t, now, now + 15 * 60 * 1000, false⟩] := by
  rw [requestLink_valid db e t now sendOk env furl he hv]
  rfl

theorem requestLink_users (db : DB) (e t : String) (now : Nat) (sendOk : Bool)
    (env furl : Option String) :
    ((requestLink db e t now sendOk env furl).1).users = db.users ∧
      ((requestLink db e t now sendOk env furl).1).nextUserId = db.nextUserId := by
  unfold requestLink
  by_cases he : e = ""
  · rw [if_pos he]; exact ⟨rfl, rfl⟩
  · rw [if_neg he]
    cases hv : validateEmail e with
    | false => exact ⟨rfl, rfl⟩
    | true =>
        simp only [Bool.not_true, Bool.false_eq_true, if_false]
        cases sendOk <;> exact ⟨rfl, rfl⟩

theorem findFirstLive_requestLink_new (db : DB) (e t : String) (now now2 : Nat)
    (sendOk : Bool) (env furl : Option String)
    (he : e ≠ "") (hv : validateEmail e = true)
    (hfresh : ∀ l ∈ db.magicLinks, l.token ≠ t)
    (hexp : now2 < now + 15 * 60 * 1000) :
    magicLinkFindFirstLive ((requestLink db e t now sendOk env furl).1) t now2 =
      some ⟨db.nextLinkId, e, t, now, now + 15 * 60 * 1000, false⟩ := by
  unfold magicLinkFindFirstLive
  rw [requestLink_valid_magicLinks db e t now sendOk env furl he hv, List.find?_append]
  have h1 : (db.magicLinks.filter
      (fun l => !(decide (l.email = e ∧ l.used = false)))).find? (liveMatch t now2) = none := by
    rw [List.find?_eq_none]
    intro x hx hmatch
    exact hfresh x (List.mem_filter.mp hx).1 (liveMatch_eq_true.mp hmatch).1
  rw [h1]
  simp [List.find?, liveMatch, hexp]

theorem find_live_marked_none (xs : List MagicLink) (t : String) (now2 : Nat) (l : MagicLink)
    (huniq : ∀ l2 ∈ xs, l2.token = t → l2 = l) :
    (xs.map (fun x => if x.id = l.id then { x with used := true } else x)).find?
      (liveMatch t now2) = none := by
  rw [List.find?_eq_none]
  intro x hx hmatch
  obtain ⟨htok, hused, _⟩ := liveMatch_eq_true.mp hmatch
  obtain ⟨y, hy, hfy⟩ := List.mem_map.mp hx
  by_cases hid : y.id = l.id
  · rw [if_pos hid] at hfy
    rw [← hfy] at hused
    exact absurd hused (by simp)
  · rw [if_neg hid] at hfy
    subst hfy
    exact hid (congrArg MagicLink.id (huniq y hy htok))

theorem verifyLink_invalid_of_none (db : DB) (t : String) (now : Nat) (ok : Bool) (s : String)
    (ht : t ≠ "") (hnone : magicLinkFindFirstLive db t now = none) :
    verifyLink db t now ok s = (db, .invalidOrExpired) := by
  unfold verifyLink
  rw [if_neg ht, hnone]

theorem verifyLink_success_of_some (db : DB) (t s : String) (now : Nat) (l : MagicLink)
    (hfind : magicLinkFindFirstLive db t now = some l) (ht : t ≠ "") :
    ∃ u, (verifyLink db t now true s).2 = .success s u ∧ u.email = l.email := by
  have heq : verifyLink db t now true s = verifyLinkFinish db l true s := by
    unfold verifyLink; rw [if_neg ht, hfind]
  rw [heq]
  unfold verifyLinkFinish
  simp only [Bool.not_true, Bool.false_eq_true, if_false]
  cases hu : userFindUnique (magicLinkMarkUsed db l.id) l.email with
  | some u =>
      refine ⟨u, by simp, ?_⟩
      have := List.find?_some hu
      simpa using this
  | none => exact ⟨(userCreate (magicLinkMarkUsed db l.id) l.email).2, by simp, rfl⟩

theorem verifyLink_success_inv (db : DB) (t s : String) (now : Nat) (ok : Bool)
    (h : ((verifyLink db t now ok s).2).isSuccess = true) :
    t ≠ "" ∧ ∃ l, magicLinkFindFirstLive db t now = some l ∧
      ((verifyLink db t now ok s).1).magicLinks = (magicLinkMarkUsed db l.id).magicLinks := by
  by_cases ht : t = ""
  · rw [show verifyLink db t now ok s = (db, .tokenRequired) from by unfold verifyLink; rw [if_pos ht]] at h
    exact absurd h (by simp [VerifyResponse.isSuccess])
  · refine ⟨ht, ?_⟩
    cases hf : magicLinkFindFirstLive db t now with
    | none =>
        rw [verifyLink_invalid_of_none db t now ok s ht hf] at h
        exact absurd h (by simp [VerifyResponse.isSuccess])
    | some l =>
        refine ⟨l, rfl, ?_⟩
        have : verifyLink db t now ok s = verifyLinkFinish db l ok s := by
          unfold verifyLink; rw [if_neg ht, hf]
        rw [this]
        exact verifyLinkFinish_magicLinks db l ok s

theorem verifyLink_success_email (db : DB) (t s : String) (now : Nat) (ok : Bool) (u : UserRec)
    (h : (verifyLink db t now ok s).2 = .success s u) :
    ∃ l, magicLinkFindFirstLive db t now = some l ∧ u.email = l.email := by
  by_cases ht : t = ""
  · rw [show verifyLink db t now ok s = (db, .tokenRequired) from by unfold verifyLink; rw [if_pos ht]] at h
    exact absurd h (by simp)
  · cases hf : magicLinkFindFirstLive db t now with
    | none =>
        rw [verifyLink_invalid_of_none db t now ok s ht hf] at h
        exact absurd h (by simp)
    | some l =>
        refine ⟨l, rfl, ?_⟩
        have heq : verifyLink db t now ok s = verifyLinkFinish db l ok s := by
          unfold verifyLink; rw [if_neg ht, hf]
        rw [heq] at h
        unfold verifyLinkFinish at h
        cases ok with
        | false => exact absurd h (by simp)
        | true =>
            simp only [Bool.not_true, Bool.false_eq_true, if_false] at h
            cases hu : userFindUnique (magicLinkMarkUsed db l.id) l.email with
            | some u0 =>
                rw [hu] at h
                have hu0 : u0.email = l.email := by simpa using List.find?_some hu
                have heq2 : u0 = u := by simpa using h
                rw [← heq2]
                exact hu0
            | none =>
                rw [hu] at h
                have heq2 : (userCreate (magicLinkMarkUsed db l.id) l.email).2 = u := by
                  simpa using h
                rw [← heq2]
                rfl

/-! ## The at-most-one-unused-token invariant -/

/-- At most one unused magic-link row per email in a list of rows. -/
def AtMostOneUnusedL (xs : List MagicLink) : Prop :=
  ∀ l1 ∈ xs, ∀ l2 ∈ xs, l1.email = l2.email → l1.used = false → l2.used = false → l1 = l2

/-- At most one unused magic-link row per email in the store. -/
def AtMostOneUnused (db : DB) : Prop := AtMostOneUnusedL db.magicLinks

theorem atMostOneUnused_init : AtMostOneUnused DB.init := by
  intro l1 h1
  simp [DB.init] at h1

theorem atMostOneUnused_markUsedL (xs : List MagicLink) (id : Nat)
    (h : AtMostOneUnusedL xs) :
    AtMostOneUnusedL (xs.map (fun l => if l.id = id then { l with used := true } else l)) := by
  intro l1 h1 l2 h2 hemail hu1 hu2
  obtain ⟨y1, hy1, hfy1⟩ := List.mem_map.mp h1
  obtain ⟨y2, hy2, hfy2⟩ := List.mem_map.mp h2
  by_cases hid1 : y1.id = id
  · rw [if_pos hid1] at hfy1
    rw [← hfy1] at hu1
    exact absurd hu1 (by simp)
  · by_cases hid2 : y2.id = id
    · rw [if_pos hid2] at hfy2
      rw [← hfy2] at hu2
      exact absurd hu2 (by simp)
    · rw [if_neg hid1] at hfy1
      rw [if_neg hid2] at hfy2
      subst hfy1
      subst hfy2
      exact h y1 hy1 y2 hy2 hemail hu1 hu2

theorem atMostOneUnused_requestLink (db : DB) (e t : String) (now : Nat) (sendOk : Bool)
    (env furl : Option String) (h : AtMostOneUnused db) :
    AtMostOneUnused ((requestLink db e t now sendOk env furl).1) := by
  by_cases he : e = ""
  · rw [show (requestLink db e t now sendOk env furl).1 = db from by
      unfold requestLink; rw [if_pos he]]
    exact h
  · cases hv : validateEmail e with
    | false =>
        rw [show (requestLink db e t now sendOk env furl).1 = db from by
          unfold requestLink; rw [if_neg he, hv]; rfl]
        exact h
    | true =>
        intro l1 h1 l2 h2 hemail hu1 hu2
        rw [requestLink_valid_magicLinks db e t now sendOk env furl he hv] at h1 h2
        rcases List.mem_append.mp h1 with hf1 | hn1
        · rcases List.mem_append.mp h2 with hf2 | hn2
          · exact h l1 (List.mem_filter.mp hf1).1 l2 (List.mem_filter.mp hf2).1 hemail hu1 hu2
          · have hl2e : l2.email = e := by
              have := List.mem_singleton.mp hn2
              rw [this]
            have := (List.mem_filter.mp hf1).2
            rw [hemail, hl2e] at this
            simp [hu1] at this
        · rcases List.mem_append.mp h2 with hf2 | hn2
          · have hl1e : l1.email = e := by
              have := List.mem_singleton.mp hn1
              rw [this]
            have := (List.mem_filter.mp hf2).2
            rw [← hemail, hl1e] at this
            simp [hu2] at this
          · rw [List.mem_singleton.mp hn1, List.mem_singleton.mp hn2]

theorem atMostOneUnused_verifyLink (db : DB) (t : String) (now : Nat) (ok : Bool) (s : String)
    (h : AtMostOneUnused db) : AtMostOneUnused ((verifyLink db t now ok s).1) := by
  rcases verifyLink_magicLinks db t now ok s with heq | ⟨l, _, heq⟩
  · unfold AtMostOneUnused
    rw [heq]
    exact h
  · unfold AtMostOneUnused
    rw [heq, markUsed_magicLinks]
    exact atMostOneUnused_markUsedL db.magicLinks l.id h

theorem atMostOneUnused_applyOp (db : DB) (op : Op) (h : AtMostOneUnused db) :
    AtMostOneUnused (applyOp db op) := by
  cases op with
  | request e t n ok env furl => exact atMostOneUnused_requestLink db e t n ok env furl h
  | verify t n ok s => exact atMostOneUnused_verifyLink db t n ok s h
  | check e n s => exact h

theorem atMostOneUnused_foldl (ops : List Op) :
    ∀ db : DB, AtMostOneUnused db → AtMostOneUnused (ops.foldl applyOp db) := by
  induction ops with
  | nil => exact fun db h => h
  | cons o os ih => exact fun db h => ih (applyOp db o) (atMostOneUnused_applyOp db o h)

theorem atMostOneUnused_runOps (ops : List Op) : AtMostOneUnused (runOps ops) :=
  atMostOneUnused_foldl ops DB.init atMostOneUnused_init

/-! ## Persistence of used rows -/

theorem markUsed_keeps_used {l : MagicLink} (h : l.used = true) (id : Nat) :
    (if l.id = id then { l with used := true } else l) = l := by
  by_cases hid : l.id = id
  · rw [if_pos hid]
    cases l
    simp_all
  · rw [if_neg hid]

theorem used_persist_requestLink (db : DB) (e t : String) (now : Nat) (ok : Bool)
    (env furl : Option String) :
    ∀ l ∈ db.magicLinks, l.used = true →
      l ∈ ((requestLink db e t now ok env furl).1).magicLinks := by
  intro l hl hused
  by_cases he : e = ""
  · rw [show (requestLink db e t now ok env furl).1 = db from by
      unfold requestLink; rw [if_pos he]]
    exact hl
  · cases hv : validateEmail e with
    | false =>
        rw [show (requestLink db e t now ok env furl).1 = db from by
          unfold requestLink; rw [if_neg he, hv]; rfl]
        exact hl
    | true =>
        rw [requestLink_valid_magicLinks db e t now ok env furl he hv]
        refine List.mem_append_left _ (List.mem_filter.mpr ⟨hl, ?_⟩)
        simp [hused]

theorem used_persist_verifyLink (db : DB) (t : String) (now : Nat) (ok : Bool) (s : String) :
    ∀ l ∈ db.magicLinks, l.used = true →
      l ∈ ((verifyLink db t now ok s).1).magicLinks := by
  intro l hl hused
  rcases verifyLink_magicLinks db t now ok s with heq | ⟨l0, _, heq⟩
  · rw [heq]; exact hl
  · rw [heq, markUsed_magicLinks]
    have : (if l.id = l0.id then { l with used := true } else l) ∈
        db.magicLinks.map (fun x => if x.id = l0.id then { x with used := true } else x) :=
      List.mem_map_of_mem _ hl
    rwa [markUsed_keeps_used hused l0.id] at this

/-! ## Claim theorems -/

/--
C4: the `used` flag of a magic-link row transitions `false → true` only:
a used row survives every handler invocation unchanged (no operation ever
resets it), and after a successful `verifyLink(T)`, a subsequent
sequential `verifyLink(T)` fails with the `InvalidOrExpiredToken`
response.  The second part assumes the token identifies at most one row,
as holds for the cryptographically unique generated tokens.
-/
theorem token_used_transition_once :
    (∀ (db : DB) (op : Op), ∀ l ∈ db.magicLinks, l.used = true →
        l ∈ (applyOp db op).magicLinks) ∧
    (∀ (db : DB) (t : String) (now now2 : Nat) (ok1 ok2 : Bool) (s1 s2 : String),
        (∀ l1 ∈ db.magicLinks, ∀ l2 ∈ db.magicLinks, l1.token = t → l2.token = t → l1 = l2) →
        ((verifyLink db t now ok1 s1).2).isSuccess = true →
        (verifyLink ((verifyLink db t now ok1 s1).1) t now2 ok2 s2).2 = .invalidOrExpired) := by
  constructor
  · intro db op l hl hused
    cases op with
    | request e t n ok env furl => exact used_persist_requestLink db e t n ok env furl l hl hused
    | verify t n ok s => exact used_persist_verifyLink db t n ok s l hl hused
    | check e n s => exact hl
  · intro db t now now2 ok1 ok2 s1 s2 huniq hsucc
    obtain ⟨ht, l, hfind, hlinks⟩ := verifyLink_success_inv db t s1 now ok1 hsucc
    obtain ⟨hmem, htok, hused, _⟩ := findFirstLive_some hfind
    have hnone : magicLinkFindFirstLive ((verifyLink db t now ok1 s1).1) t now2 = none := by
      show ((verifyLink db t now ok1 s1).1).magicLinks.find? (liveMatch t now2) = none
      rw [hlinks, markUsed_magicLinks]
      exact find_live_marked_none db.magicLinks t now2 l
        (fun l2 h2 ht2 => huniq l2 h2 l hmem ht2 htok)
    rw [verifyLink_invalid_of_none _ t now2 ok2 s2 ht hnone]

/--
C4 witness: a store holding the single live token `tok`; the first
verification succeeds and the second answers `invalidOrExpired`.
-/
theorem token_used_transition_once_witness :
    ((JobFinder.verifyLink ⟨[⟨1, "user@example.com", "tok", 0, 900000, false⟩], [], 2, 0⟩
        "tok" 0 true "s1").2).isSuccess = true ∧
    (JobFinder.verifyLink ((JobFinder.verifyLink
        ⟨[⟨1, "user@example.com", "tok", 0, 900000, false⟩], [], 2, 0⟩ "tok" 0 true "s1").1)
        "tok" 5 true "s2").2 = .invalidOrExpired := by
  refine ⟨by decide, ?_⟩
  exact token_used_transition_once.2
    ⟨[⟨1, "user@example.com", "tok", 0, 900000, false⟩], [], 2, 0⟩
    "tok" 0 5 true true "s1" "s2" (by decide) (by decide)

/--
C5: every token issued by `requestLink` carries
`expiresAt = issuance time + 15 minutes` (in milliseconds), and
`verifyLink` rejects any token all of whose rows have `expiresAt ≤ now`
with the `InvalidOrExpiredToken` response, regardless of the `used`
flag.
-/
theorem token_expiry_fifteen_minutes :
    (∀ (db : DB) (e t : String) (now : Nat) (ok : Bool) (env furl : Option String),
       e ≠ "" → validateEmail e = true →
       MagicLink.mk db.nextLinkId e t now (now + 15 * 60 * 1000) false ∈
         ((requestLink db e t now ok env furl).1).magicLinks) ∧
    (∀ (db2 : DB) (t2 s2 : String) (now2 : Nat) (ok2 : Bool),
       t2 ≠ "" →
       (∀ l ∈ db2.magicLinks, l.token = t2 → l.expiresAt ≤ now2) →
       verifyLink db2 t2 now2 ok2 s2 = (db2, .invalidOrExpired)) := by
  constructor
  · intro db e t now ok env furl he hv
    rw [requestLink_valid_magicLinks db e t now ok env furl he hv]
    exact List.mem_append_right _ (List.mem_singleton.mpr rfl)
  · intro db2 t2 s2 now2 ok2 ht hexp
    apply verifyLink_invalid_of_none _ _ _ _ _ ht
    rw [findFirstLive_eq_none]
    intro l hl h
    obtain ⟨ha, _, hc⟩ := h
    have := hexp l hl ha
    omega

/--
C5 witness: a request at time 0 stores a token expiring at 900000 ms
(15 minutes), and verifying an unused well-formed token at 900000 ms
(exactly on expiry, hence `expiresAt ≤ now`) is rejected.
-/
theorem token_expiry_fifteen_minutes_witness :
    (MagicLink.mk 0 "user@example.com" "tok" 0 900000 false ∈
       ((JobFinder.requestLink DB.init "user@example.com" "tok" 0 true none none).1).magicLinks) ∧
    JobFinder.verifyLink ⟨[⟨1, "user@example.com", "tok", 0, 900000, false⟩], [], 2, 0⟩
        "tok" 900000 true "s" =
      (⟨[⟨1, "user@example.com", "tok", 0, 900000, false⟩], [], 2, 0⟩, .invalidOrExpired) := by
  constructor
  · exact token_expiry_fifteen_minutes.1 DB.init "user@example.com" "tok" 0 true none none
      (by decide) (by decide)
  · exact token_expiry_fifteen_minutes.2
      ⟨[⟨1, "user@example.com", "tok", 0, 900000, false⟩], [], 2, 0⟩ "tok" "s" 900000 true
      (by decide) (by decide)

/--
C6: `verifyLink` answers the one `InvalidOrExpiredToken` response
(HTTP 400) for every rejection cause — token never issued, token already
used, token expired: two runs rejected for different causes on possibly
different stores return equal responses, and the store is unchanged.
The hypothesis `every row holding the token is used or expired` covers
all three causes (it is vacuous for a never-issued token).
-/
theorem verifyLink_uniform_rejection :
    ∀ (db1 : DB) (t1 : String) (now1 : Nat) (ok1 : Bool) (s1 : String)
      (db2 : DB) (t2 : String) (now2 : Nat) (ok2 : Bool) (s2 : String),
      t1 ≠ "" → t2 ≠ "" →
      (∀ l ∈ db1.magicLinks, l.token = t1 → l.used = true ∨ l.expiresAt ≤ now1) →
      (∀ l ∈ db2.magicLinks, l.token = t2 → l.used = true ∨ l.expiresAt ≤ now2) →
      verifyLink db1 t1 now1 ok1 s1 = (db1, .invalidOrExpired) ∧
      (verifyLink db2 t2 now2 ok2 s2).2 = (verifyLink db1 t1 now1 ok1 s1).2 ∧
      ((verifyLink db1 t1 now1 ok1 s1).2).httpStatus = 400 := by
  intro db1 t1 now1 ok1 s1 db2 t2 now2 ok2 s2 ht1 ht2 hcause1 hcause2
  have reject : ∀ (db : DB) (t : String) (now : Nat) (ok : Bool) (s : String),
      t ≠ "" → (∀ l ∈ db.magicLinks, l.token = t → l.used = true ∨ l.expiresAt ≤ now) →
      verifyLink db t now ok s = (db, .invalidOrExpired) := by
    intro db t now ok s ht hcause
    apply verifyLink_invalid_of_none _ _ _ _ _ ht
    rw [findFirstLive_eq_none]
    intro l hl h
    obtain ⟨ha, hb, hc⟩ := h
    rcases hcause l hl ha with h | h
    · rw [hb] at h
      exact absurd h (by decide)
    · omega
  rw [reject db1 t1 now1 ok1 s1 ht1 hcause1, reject db2 t2 now2 ok2 s2 ht2 hcause2]
  exact ⟨rfl, rfl, rfl⟩

/--
C6 witness: a never-issued token on an empty store, and an already-used
token on a store also holding an expired token, yield the same 400
rejection.
-/
theorem verifyLink_uniform_rejection_witness :
    JobFinder.verifyLink DB.init "never-issued" 0 true "s1" = (DB.init, .invalidOrExpired) ∧
    (JobFinder.verifyLink ⟨[⟨1, "a@b.co", "usedTok", 0, 900000, true⟩,
        ⟨2, "a@b.co", "expiredTok", 0, 10, false⟩], [], 3, 0⟩ "usedTok" 20 true "s2").2 =
      (JobFinder.verifyLink DB.init "never-issued" 0 true "s1").2 ∧
    ((JobFinder.verifyLink DB.init "never-issued" 0 true "s1").2).httpStatus = 400 := by
  exact verifyLink_uniform_rejection DB.init "never-issued" 0 true "s1"
    ⟨[⟨1, "a@b.co", "usedTok", 0, 900000, true⟩,
      ⟨2, "a@b.co", "expiredTok", 0, 10, false⟩], [], 3, 0⟩ "usedTok" 20 true "s2"
    (by decide) (by decide) (by decide) (by decide)

/--
C10: `verifyLink` marks the token used before resolving the user: when
the user lookup/creation step fails after the mark, the handler answers
the 500 error, yet the row is already flipped to `used = true` in the
resulting store and stays so, and retrying the same magic link can never
succeed — it is rejected as `invalidOrExpired`.
-/
theorem verifyLink_marks_used_before_user_resolution :
    ∀ (db : DB) (t s s2 : String) (now now2 : Nat) (l : MagicLink) (ok2 : Bool),
      magicLinkFindFirstLive db t now = some l →
      t ≠ "" →
      (∀ l2 ∈ db.magicLinks, l2.token = t → l2 = l) →
      verifyLink db t now false s = (magicLinkMarkUsed db l.id, .serverError) ∧
      VerifyResponse.serverError.httpStatus = 500 ∧
      l.used = false ∧
      ({ l with used := true } ∈ (magicLinkMarkUsed db l.id).magicLinks) ∧
      (verifyLink (magicLinkMarkUsed db l.id) t now2 ok2 s2).2 = .invalidOrExpired := by
  intro db t s s2 now now2 l ok2 hfind ht huniq
  obtain ⟨hmem, htok, hused, _⟩ := findFirstLive_some hfind
  refine ⟨?_, rfl, hused, ?_, ?_⟩
  · unfold verifyLink
    rw [if_neg ht, hfind]
    rfl
  · rw [markUsed_magicLinks]
    exact List.mem_map.mpr ⟨l, hmem, by rw [if_pos rfl]⟩
  · have hnone : magicLinkFindFirstLive (magicLinkMarkUsed db l.id) t now2 = none := by
      show (magicLinkMarkUsed db l.id).magicLinks.find? (liveMatch t now2) = none
      rw [markUsed_magicLinks]
      exact find_live_marked_none db.magicLinks t now2 l huniq
    rw [verifyLink_invalid_of_none _ t now2 ok2 s2 ht hnone]

/--
C10 witness: verifying the live token `tok` with a failing user store
answers 500, leaves the row used, and the retry is rejected.
-/
theorem verifyLink_marks_used_before_user_resolution_witness :
    JobFinder.verifyLink ⟨[⟨1, "user@example.com", "tok", 0, 900000, false⟩], [], 2, 0⟩
        "tok" 0 false "s" =
      (magicLinkMarkUsed ⟨[⟨1, "user@example.com", "tok", 0, 900000, false⟩], [], 2, 0⟩ 1,
       .serverError) ∧
    VerifyResponse.serverError.httpStatus = 500 ∧
    (MagicLink.mk 1 "user@example.com" "tok" 0 900000 false).used = false ∧
    ({ MagicLink.mk 1 "user@example.com" "tok" 0 900000 false with used := true } ∈
      (magicLinkMarkUsed ⟨[⟨1, "user@example.com", "tok", 0, 900000, false⟩], [], 2, 0⟩
        1).magicLinks) ∧
    (JobFinder.verifyLink (magicLinkMarkUsed
        ⟨[⟨1, "user@example.com", "tok", 0, 900000, false⟩], [], 2, 0⟩ 1)
        "tok" 7 true "s2").2 = .invalidOrExpired := by
  exact verifyLink_marks_used_before_user_resolution
    ⟨[⟨1, "user@example.com", "tok", 0, 900000, false⟩], [], 2, 0⟩ "tok" "s" "s2" 0 7
    (MagicLink.mk 1 "user@example.com" "tok" 0 900000 false) true
    (by decide) (by decide) (by decide)

/--
C1: against the claimed at-most-once guarantee, the verify handler's
read-then-mark sequence is NOT atomic: the `update` is keyed on `id`
alone (not conditional on `used`), so in the legal interleaving in which
both `findFirst` reads run before either `update` (schedule R1;R2;W1;W2,
modelled by `concurrentDoubleVerify`), two concurrent verifications of
the same live token BOTH succeed with 200 — the second caller does not
observe `InvalidOrExpiredToken`.
-/
theorem verifyLink_concurrent_double_success :
    ((concurrentDoubleVerify ⟨[⟨1, "user@example.com", "tok", 0, 900000, false⟩], [], 2, 0⟩
        "tok" 0 "s1" "s2").1).isSuccess = true ∧
    ((concurrentDoubleVerify ⟨[⟨1, "user@example.com", "tok", 0, 900000, false⟩], [], 2, 0⟩
        "tok" 0 "s1" "s2").2).isSuccess = true ∧
    ((concurrentDoubleVerify ⟨[⟨1, "user@example.com", "tok", 0, 900000, false⟩], [], 2, 0⟩
        "tok" 0 "s1" "s2").1).httpStatus = 200 ∧
    ((concurrentDoubleVerify ⟨[⟨1, "user@example.com", "tok", 0, 900000, false⟩], [], 2, 0⟩
        "tok" 0 "s1" "s2").2).httpStatus = 200 := by decide

/--
C2 counterexample: the claim measures the 5-minute `checkStatus` window
from the moment the token was marked used, but the handler filters on
`createdAt`.  A token created at 0 ms and successfully verified at
840000 ms (14 min, still inside its 15-minute life) yields
`authenticated: false` at 870000 ms — only 30 s after the successful
`verifyLink`, well inside the claimed window.
-/
theorem checkStatus_soon_after_verify_not_authenticated :
    ((verifyLink ⟨[⟨1, "user@example.com", "tok", 0, 900000, false⟩], [], 2, 0⟩
        "tok" 840000 true "cred").2).isSuccess = true ∧
    checkStatus ((verifyLink ⟨[⟨1, "user@example.com", "tok", 0, 900000, false⟩], [], 2, 0⟩
        "tok" 840000 true "cred").1) "user@example.com" 870000 "cred2" =
      .notAuthenticated := by decide

/--
C2 (amended): the trailing 5-minute window of `checkStatus` is measured
from the token's creation time (`createdAt`), not from the moment it was
marked used: `checkStatus(E)` answers `authenticated` with a fresh
credential exactly when some used token for `E` was created within the
last 5 minutes and a user account for `E` exists.
-/
theorem checkStatus_window_from_creation :
    ∀ (db : DB) (e s : String) (now : Nat),
      e ≠ "" →
      (checkStatus db e now s = .authenticated s ↔
        ((∃ l ∈ db.magicLinks,
            l.email = e ∧ l.used = true ∧ now ≤ l.createdAt + 5 * 60 * 1000) ∧
         ∃ u ∈ db.users, u.email = e)) := by
  intro db e s now he
  unfold checkStatus
  rw [if_neg he]
  by_cases hany : db.magicLinks.any (recentUsedMatch e now) = true
  · rw [if_pos hany]
    cases hu : userFindUnique db e with
    | some u =>
        constructor
        · intro _
          constructor
          · obtain ⟨l, hl, hp⟩ := List.any_eq_true.mp hany
            exact ⟨l, hl, by simpa [recentUsedMatch] using hp⟩
          · exact ⟨u, List.mem_of_find?_eq_some hu, by simpa using List.find?_some hu⟩
        · intro _
          rfl
    | none =>
        constructor
        · intro h
          exact absurd h (by simp)
        · intro h
          obtain ⟨_, u, hu2, hue⟩ := h
          have := List.find?_eq_none.mp hu u hu2
          simp [hue] at this
  · rw [if_neg hany]
    constructor
    · intro h
      exact absurd h (by simp)
    · intro h
      obtain ⟨⟨l, hl, h1, h2, h3⟩, _⟩ := h
      exact absurd (List.any_eq_true.mpr ⟨l, hl, by simp [recentUsedMatch, h1, h2, h3]⟩) hany

/--
C2 witness: a used token created at 0 ms and a matching user make
`checkStatus` at 100000 ms (inside 5 min of creation) answer
`authenticated`.
-/
theorem checkStatus_window_from_creation_witness :
    checkStatus ⟨[⟨1, "user@example.com", "tok", 0, 900000, true⟩],
        [⟨0, "user@example.com", "", "User", "Name", "JOB_SEEKER"⟩], 2, 1⟩
      "user@example.com" 100000 "cred" = .authenticated "cred" := by
  exact (checkStatus_window_from_creation
    ⟨[⟨1, "user@example.com", "tok", 0, 900000, true⟩],
      [⟨0, "user@example.com", "", "User", "Name", "JOB_SEEKER"⟩], 2, 1⟩
    "user@example.com" "cred" 100000 (by decide)).mpr
    ⟨⟨⟨1, "user@example.com", "tok", 0, 900000, true⟩, by decide, by decide⟩,
     ⟨⟨0, "user@example.com", "", "User", "Name", "JOB_SEEKER"⟩, by decide, by decide⟩⟩

/--
C9 counterexample: with `NODE_ENV = "test"` — a non-production
environment — the success response of `POST /magic-link` does NOT
contain the raw magic link: the handler includes it only when
`NODE_ENV === 'development'`.
-/
theorem requestLink_nonproduction_no_link :
    some "test" ≠ some "production" ∧
    (requestLink DB.init "user@example.com" "tok" 0 true (some "test") none).2.1 =
      .ok "Magic link sent successfully" none none := by decide

/--
C9 (amended): the success response of `POST /magic-link` contains the
raw magic link exactly when `NODE_ENV` equals `development`; in every
other environment — production included — it carries only the
acknowledgement message (plus the delivery warning when dispatch
failed).
-/
theorem requestLink_dev_link_only :
    ∀ (db : DB) (e t : String) (now : Nat) (sendOk : Bool) (env furl : Option String),
      e ≠ "" → validateEmail e = true →
      (requestLink db e t now sendOk env furl).2.1 =
        .ok "Magic link sent successfully"
          (if sendOk then none else some "Email delivery may be delayed")
          (if env = some "development" then some (magicLinkUrl furl t) else none) := by
  intro db e t now sendOk env furl he hv
  rw [requestLink_valid db e t now sendOk env furl he hv]

/--
C9 witness: in production the response carries no link; under
`development` it carries the raw URL.
-/
theorem requestLink_dev_link_only_witness :
    (requestLink DB.init "user@example.com" "tok" 0 true (some "production") none).2.1 =
      .ok "Magic link sent successfully" none none ∧
    (requestLink DB.init "user@example.com" "tok" 0 true (some "development") none).2.1 =
      .ok "Magic link sent successfully" none
        (some "http://localhost:3000/auth/magic-link?token=tok") := by
  constructor
  · exact (requestLink_dev_link_only DB.init "user@example.com" "tok" 0 true
      (some "production") none (by decide) (by decide)).trans (by decide)
  · exact (requestLink_dev_link_only DB.init "user@example.com" "tok" 0 true
      (some "development") none (by decide) (by decide)).trans (by decide)

/--
C7 counterexample: when email dispatch fails, the handler logs the
failure through `logger.error` — at `error` level, not as a warning —
while the 200 response carries a `warning` field.
-/
theorem requestLink_email_failure_logged_error :
    (requestLink DB.init "user@example.com" "tok" 0 false none none).2.2 =
      [⟨.error, "Failed to send magic link email:"⟩] ∧
    LogLevel.error ≠ LogLevel.warn ∧
    (requestLink DB.init "user@example.com" "tok" 0 false none none).2.1 =
      .ok "Magic link sent successfully" (some "Email delivery may be delayed") none := by
  decide

/--
C7 (amended): if email dispatch fails during `requestLink`, the
already-persisted token is not rolled back: the failure is logged at
error level, the caller still receives the success response (carrying a
`warning` field), the token remains present in the store, and it
remains verifiable despite the delivery failure.
-/
theorem requestLink_email_failure_tolerated :
    ∀ (db : DB) (e t s : String) (now now2 : Nat) (env furl : Option String),
      e ≠ "" → validateEmail e = true → t ≠ "" →
      (∀ l ∈ db.magicLinks, l.token ≠ t) →
      now2 < now + 15 * 60 * 1000 →
      (requestLink db e t now false env furl).2.1 =
        .ok "Magic link sent successfully" (some "Email delivery may be delayed")
          (if env = some "development" then some (magicLinkUrl furl t) else none) ∧
      (requestLink db e t now false env furl).2.2 =
        [⟨.error, "Failed to send magic link email:"⟩] ∧
      MagicLink.mk db.nextLinkId e t now (now + 15 * 60 * 1000) false ∈
        ((requestLink db e t now false env furl).1).magicLinks ∧
      ∃ u, (verifyLink ((requestLink db e t now false env furl).1) t now2 true s).2 =
          .success s u ∧ u.email = e := by
  intro db e t s now now2 env furl he hv ht hfresh hexp
  have hchar := requestLink_valid db e t now false env furl he hv
  refine ⟨by rw [hchar]; simp, by rw [hchar]; simp, ?_, ?_⟩
  · rw [requestLink_valid_magicLinks db e t now false env furl he hv]
    exact List.mem_append_right _ (List.mem_singleton.mpr rfl)
  · have hfind := findFirstLive_requestLink_new db e t now now2 false env furl he hv hfresh hexp
    obtain ⟨u, hu, hue⟩ := verifyLink_success_of_some _ t s now2 _ hfind ht
    exact ⟨u, hu, by rw [hue]⟩

/--
C7 witness: with dispatch failing, the caller still gets the success
response and the persisted token verifies a millisecond later.
-/
theorem requestLink_email_failure_tolerated_witness :
    (requestLink DB.init "user@example.com" "tok" 0 false none none).2.1 =
      .ok "Magic link sent successfully" (some "Email delivery may be delayed") none ∧
    ((verifyLink ((requestLink DB.init "user@example.com" "tok" 0 false none none).1)
        "tok" 1 true "cred").2).isSuccess = true := by
  have h := requestLink_email_failure_tolerated DB.init "user@example.com" "tok" "cred" 0 1
    none none (by decide) (by decide) (by decide) (by decide) (by decide)
  refine ⟨h.1.trans (by decide), ?_⟩
  obtain ⟨u, hu, _⟩ := h.2.2.2
  rw [hu]
  rfl

/--
C8: `requestLink` never creates or modifies a user account (the `users`
table and its id allocator are untouched); a successful `verifyLink`
for an email with no existing account creates exactly one account with
the placeholder profile fields (empty password hash, names
`User`/`Name`) and the default role `JOB_SEEKER` and returns it; and
every user record returned by a successful `verifyLink` has the email
of the verified token's row.
-/
theorem verifyLink_user_lifecycle :
    (∀ (db : DB) (e t : String) (now : Nat) (ok : Bool) (env furl : Option String),
       ((requestLink db e t now ok env furl).1).users = db.users ∧
       ((requestLink db e t now ok env furl).1).nextUserId = db.nextUserId) ∧
    (∀ (db : DB) (t s : String) (now : Nat) (l : MagicLink),
       magicLinkFindFirstLive db t now = some l →
       t ≠ "" →
       userFindUnique db l.email = none →
       verifyLink db t now true s =
         ({ magicLinkMarkUsed db l.id with
              users := db.users ++ [⟨db.nextUserId, l.email, "", "User", "Name", "JOB_SEEKER"⟩],
              nextUserId := db.nextUserId + 1 },
          .success s ⟨db.nextUserId, l.email, "", "User", "Name", "JOB_SEEKER"⟩)) ∧
    (∀ (db : DB) (t s : String) (now : Nat) (ok : Bool) (u : UserRec),
       (verifyLink db t now ok s).2 = .success s u →
       ∃ l, magicLinkFindFirstLive db t now = some l ∧ u.email = l.email) := by
  refine ⟨fun db e t now ok env furl => requestLink_users db e t now ok env furl, ?_, ?_⟩
  · intro db t s now l hfind ht hnone
    have heq : verifyLink db t now true s = verifyLinkFinish db l true s := by
      unfold verifyLink
      rw [if_neg ht, hfind]
    rw [heq]
    unfold verifyLinkFinish
    simp only [Bool.not_true, Bool.false_eq_true, if_false]
    rw [show userFindUnique (magicLinkMarkUsed db l.id) l.email = none from hnone]
    rfl
  · intro db t s now ok u h
    exact verifyLink_success_email db t s now ok u h

/--
C8 witness: the request leaves the user table empty; verifying the live
token then creates exactly the placeholder `JOB_SEEKER` account for the
token's email and returns it, whose email is the token's email.
-/
theorem verifyLink_user_lifecycle_witness :
    ((requestLink DB.init "user@example.com" "tok" 0 true none none).1).users = [] ∧
    verifyLink ⟨[⟨1, "user@example.com", "tok", 0, 900000, false⟩], [], 2, 0⟩
        "tok" 0 true "cred" =
      (⟨[⟨1, "user@example.com", "tok", 0, 900000, true⟩],
        [⟨0, "user@example.com", "", "User", "Name", "JOB_SEEKER"⟩], 2, 1⟩,
       .success "cred" ⟨0, "user@example.com", "", "User", "Name", "JOB_SEEKER"⟩) ∧
    (UserRec.mk 0 "user@example.com" "" "User" "Name" "JOB_SEEKER").email =
      "user@example.com" := by
  refine ⟨(verifyLink_user_lifecycle.1 DB.init "user@example.com" "tok" 0 true none none).1, ?_, ?_⟩
  · exact (verifyLink_user_lifecycle.2.1
      ⟨[⟨1, "user@example.com", "tok", 0, 900000, false⟩], [], 2, 0⟩ "tok" "cred" 0
      ⟨1, "user@example.com", "tok", 0, 900000, false⟩
      (by decide) (by decide) (by decide)).trans (by decide)
  · obtain ⟨l, hl, he⟩ := verifyLink_user_lifecycle.2.2
      ⟨[⟨1, "user@example.com", "tok", 0, 900000, false⟩], [], 2, 0⟩ "tok" "cred" 0 true
      ⟨0, "user@example.com", "", "User", "Name", "JOB_SEEKER"⟩ (by decide)
    have hleq : (⟨1, "user@example.com", "tok", 0, 900000, false⟩ : MagicLink) = l :=
      Option.some.inj ((by decide : magicLinkFindFirstLive
        ⟨[⟨1, "user@example.com", "tok", 0, 900000, false⟩], [], 2, 0⟩ "tok" 0 =
          some ⟨1, "user@example.com", "tok", 0, 900000, false⟩).symm.trans hl)
    rw [← hleq] at he

/--
C3: at most one live (unused and unexpired) token exists per email in
every store reachable through the handlers from the empty store; and
after `requestLink(E)` immediately followed by a second
`requestLink(E)` — with fresh, distinct generated tokens — the first
call's token fails verification with `InvalidOrExpiredToken` while the
second call's token verifies successfully for `E`.
-/
theorem requestLink_single_live_token :
    (∀ (ops : List Op) (now : Nat),
       ∀ l1 ∈ (runOps ops).magicLinks, ∀ l2 ∈ (runOps ops).magicLinks,
         l1.email = l2.email → l1.used = false → l2.used = false →
         now < l1.expiresAt → now < l2.expiresAt → l1 = l2) ∧
    (∀ (db0 : DB) (E t1 t2 s : String) (n1 n2 now : Nat) (ok1 ok2 uok : Bool)
       (env furl : Option String),
       E ≠ "" → validateEmail E = true →
       t1 ≠ "" → t2 ≠ "" → t1 ≠ t2 →
       (∀ l ∈ db0.magicLinks, l.token ≠ t1 ∧ l.token ≠ t2) →
       now < n2 + 15 * 60 * 1000 →
       (verifyLink ((requestLink ((requestLink db0 E t1 n1 ok1 env furl).1)
           E t2 n2 ok2 env furl).1) t1 now uok s).2 = .invalidOrExpired ∧
       ∃ u, (verifyLink ((requestLink ((requestLink db0 E t1 n1 ok1 env furl).1)
           E t2 n2 ok2 env furl).1) t2 now true s).2 = .success s u ∧ u.email = E) := by
  constructor
  · intro ops now l1 h1 l2 h2 he hu1 hu2 _ _
    exact atMostOneUnused_runOps ops l1 h1 l2 h2 he hu1 hu2
  · intro db0 E t1 t2 s n1 n2 now ok1 ok2 uok env furl hE hv ht1 ht2 hne hfresh hexp
    have hchar1 := requestLink_valid_magicLinks db0 E t1 n1 ok1 env furl hE hv
    have hchar2 := requestLink_valid_magicLinks ((requestLink db0 E t1 n1 ok1 env furl).1)
      E t2 n2 ok2 env furl hE hv
    have hmem1 : ∀ l ∈ ((requestLink db0 E t1 n1 ok1 env furl).1).magicLinks,
        l.token ≠ t2 := by
      intro l hl
      rw [hchar1] at hl
      rcases List.mem_append.mp hl with hf | hn
      · exact (hfresh l (List.mem_filter.mp hf).1).2
      · rw [List.mem_singleton.mp hn]
        exact hne
    constructor
    · have hnot1 : ∀ l ∈ ((requestLink ((requestLink db0 E t1 n1 ok1 env furl).1)
          E t2 n2 ok2 env furl).1).magicLinks, l.token ≠ t1 := by
        intro l hl
        rw [hchar2] at hl
        rcases List.mem_append.mp hl with hf | hn
        · have hmemf := List.mem_filter.mp hf
          have hl1 := hmemf.1
          rw [hchar1] at hl1
          rcases List.mem_append.mp hl1 with hf0 | hn1
          · exact (hfresh l (List.mem_filter.mp hf0).1).1
          · exfalso
            have hlL1 := List.mem_singleton.mp hn1
            have := hmemf.2
            rw [hlL1] at this
            simp at this
        · rw [List.mem_singleton.mp hn]
          exact fun h => hne h.symm
      have hnone : magicLinkFindFirstLive ((requestLink ((requestLink db0 E t1 n1 ok1
          env furl).1) E t2 n2 ok2 env furl).1) t1 now = none := by
        rw [findFirstLive_eq_none]
        intro l hl h
        exact hnot1 l hl h.1
      rw [verifyLink_invalid_of_none _ t1 now uok s ht1 hnone]
    · have hfind2 := findFirstLive_requestLink_new ((requestLink db0 E t1 n1 ok1 env furl).1)
        E t2 n2 now ok2 env furl hE hv hmem1 hexp
      obtain ⟨u, hu, hue⟩ := verifyLink_success_of_some _ t2 s now _ hfind2 ht2
      exact ⟨u, hu, by rw [hue]⟩

/--
C3 witness: from the empty store, two immediate requests for the same
email with distinct tokens; the stored link is unique and live, the
first token is rejected and the second verifies.
-/
theorem requestLink_single_live_token_witness :
    (MagicLink.mk 0 "user@example.com" "tokA" 0 900000 false =
      MagicLink.mk 0 "user@example.com" "tokA" 0 900000 false) ∧
    (verifyLink ((requestLink ((requestLink DB.init "user@example.com" "t1" 0 true
        none none).1) "user@example.com" "t2" 0 true none none).1)
        "t1" 1 true "cred").2 = .invalidOrExpired ∧
    ((verifyLink ((requestLink ((requestLink DB.init "user@example.com" "t1" 0 true
        none none).1) "user@example.com" "t2" 0 true none none).1)
        "t2" 1 true "cred").2).isSuccess = true := by
  have hpart1 := requestLink_single_live_token.1
    [.request "user@example.com" "tokA" 0 true none none] 0
    ⟨0, "user@example.com", "tokA", 0, 900000, false⟩ (by decide)
    ⟨0, "user@example.com", "tokA", 0, 900000, false⟩ (by decide)
    (by decide) (by decide) (by decide) (by decide) (by decide)
  have hpart2 := requestLink_single_live_token.2 DB.init "user@example.com" "t1" "t2" "cred"
    0 0 1 true true true none none (by decide) (by decide) (by decide) (by decide)
    (by decide) (by decide) (by decide)
  refine ⟨hpart1, hpart2.1, ?_⟩
  obtain ⟨u, hu, _⟩ := hpart2.2
  rw [hu]
  rfl

end JobFinder
